import Mathlib

/-!
# Verification of the restinpieces-acme certificate-renewal pipeline

Shallow embedding of the renewal orchestration code of the
`caasmo/restinpieces-acme` repository, together with theorems settling
the frozen claims about it.

Modelling conventions:
* `time.Time` values are modelled as absolute instants (`sec`, seconds
  since the Unix epoch) together with a location name (`loc`), so that
  `t.UTC()` keeps the instant and sets the location to `"UTC"`.
* `time.Duration` arithmetic (`time.Until(...).Hours() / 24`) is modelled
  with exact rational arithmetic over unbounded integers.
* PEM decoding and x509 parsing are performed by external libraries
  (`encoding/pem`, `crypto/x509`); their outcome on a given input is part
  of the input of the embedded functions (`PEMData`, `LeafParse`).
* External blocking operations (lego client construction, DNS-provider
  registration, ACME account registration, certificate obtain, store
  save) are modelled by an environment record holding their outcomes,
  and every invocation of such an operation is recorded in an event
  trace returned next to the function result.
-/

/-- Model of Go `time.Time`: an absolute instant in seconds since the
Unix epoch plus a location name.  `utc` mirrors Go's `Time.UTC()`:
same instant, location set to UTC. -/
structure GoTime where
  sec : Int
  loc : String
  deriving DecidableEq, Repr

def GoTime.utc (t : GoTime) : GoTime :=
  { sec := t.sec, loc := "UTC" }

/-- The fields of a parsed `x509.Certificate` used by this repository:
`NotBefore` and `NotAfter`. -/
structure Certificate where
  notBefore : GoTime
  notAfter : GoTime
  deriving DecidableEq, Repr

/-- Outcome of running `pem.Decode` followed by `x509.ParseCertificate`
on the configured certificate data (`cfg.Server.CertData`), as consumed by
`certificateNeedsRenewal` in part_004:
* `empty`: the string is `""`;
* `undecodable`: `pem.Decode` returns a nil block;
* `unparsable`: the block decodes but `x509.ParseCertificate` errors;
* `valid`: a certificate is parsed. -/
inductive PEMData where
  | empty
  | undecodable (raw : String)
  | unparsable (raw : String)
  | valid (cert : Certificate)
  deriving DecidableEq, Repr

/-- Outcome of `pem.Decode` + `x509.ParseCertificate` on the leading
entry of an obtained certificate chain (`resource.Certificate`). -/
inductive LeafParse where
  | noBlock
  | parseFail
  | ok (cert : Certificate)
  deriving DecidableEq, Repr

/-- Model of lego's `certificate.Resource` as used by the repository:
the declared primary domain, the PEM chain bytes (with the result of
parsing its leading block), and the PEM private key. -/
structure Resource where
  domain : String
  certificateChainRaw : String
  leafParse : LeafParse
  privateKey : String
  deriving DecidableEq, Repr

/-- The error cases of the part_004 `TLSCertRenewalHandler.Handle` /
`certificateNeedsRenewal` / `saveCertificateResource` code.  Each
constructor carries exactly the data interpolated into the Go error
message it models (so `obtainFailed` carries nothing: the source returns
`fmt.Errorf("failed to obtain ACME certificate: %w", err)`, naming no
domains — the domain set appears only in the log call next to it). -/
inductive TLSErr where
  | unsupportedDNSProvider (name : String)
  | missingCloudflareToken
  | noDomains
  | expiryCheckFailed
  | missingAcmeKey
  | parseAcmeKey
  | newClient
  | cloudflareProvider
  | setDNSProvider
  | registrationFailed
  | obtainFailed
  | decodePEMFailed (domain : String)
  | parseCertFailed (domain : String)
  | marshalDomainsFailed
  | saveFailed (identifier : String)
  deriving DecidableEq, Repr

/-- Whether the Go error message modelled by this constructor
interpolates the attempted domain set (checked against every
`fmt.Errorf` format string of part_004). -/
def TLSErr.namesDomains : TLSErr → Bool
  | _ => false

/-- `certificateNeedsRenewal` (part_004, lines 274-311).  Returns
`(needsRenewal, error)`.  The float computation
`time.Until(cert.NotAfter).Hours() / 24 < float64(threshold)` is
modelled exactly over the rationals, with `now` the current instant in
seconds. -/
def certificateNeedsRenewal (certPEMData : PEMData) (now : Int)
    (renewalDaysThreshold : Int) : Bool × Option String :=
  match certPEMData with
  | .empty => (true, none)
  | .undecodable _ => (true, none)
  | .unparsable _ => (true, none)
  | .valid cert =>
    if ((cert.notAfter.sec - now : Int) : ℚ) / 3600 / 24 < (renewalDaysThreshold : ℚ)
    then (true, none)
    else (false, none)

/-- The spec's formula (§4.1, §8): `daysUntil(notAfter) = (notAfter - now) / 24h`,
written directly from the spec's words for comparison with the code. -/
def specDaysUntil (now notAfter : Int) : ℚ :=
  ((notAfter - now : Int) : ℚ) / 86400

/-- External interactions recorded by the embedded handlers. -/
inductive ExtEvent where
  | newClient
  | setDNS
  | register
  | obtain (domains : List String)
  | save (identifier : String)
  deriving DecidableEq, Repr

/-- Whether the recorded step talks to the network.  Account
registration, obtain, and persistence are the blocking external
operations listed in spec §5; client construction is also a network
call, since `lego.NewClient` of the imported go-acme/lego v4 library
eagerly fetches the ACME directory.  Setting the DNS-01 provider is
documented in part_004 (line 150) as performing no network
communication. -/
def ExtEvent.isNetwork : ExtEvent → Bool
  | .register => true
  | .obtain _ => true
  | .save _ => true
  | .newClient => true
  | .setDNS => false

def ExtEvent.isSave : ExtEvent → Bool
  | .save _ => true
  | _ => false

def exceptIsError {ε α : Type} : Except ε α → Bool
  | .error _ => true
  | .ok _ => false

/-- The `Acme` section of the application configuration consumed by the
part_004 handler. -/
structure AcmeSettings where
  enabled : Bool
  email : String
  domains : List String
  dnsProvider : String
  renewalDaysBeforeExpiry : Int
  cloudflareApiToken : String
  caDirectoryURL : String
  acmePrivateKey : String
  deriving DecidableEq, Repr

/-- The configuration snapshot read by the part_004 handler: the `Acme`
section plus `Server.CertData` (with the parse outcome attached). -/
structure TLSConfig where
  acme : AcmeSettings
  serverCertData : PEMData
  deriving DecidableEq, Repr

/-- Outcomes of the external operations a run of the part_004 handler
may perform, plus the current time. -/
structure TLSEnv where
  now : Int
  parseKeyOk : Bool
  newClientOk : Bool
  newCFProviderOk : Bool
  setDNSOk : Bool
  registerOk : Bool
  obtainResult : Option Resource
  saveOk : Bool
  deriving DecidableEq, Repr

/-- The certificate record built by `saveCertificateResource`
(part_004, lines 221-258), mirroring `db.AcmeCert`'s assigned fields.
The Go code stores `Domains` as the JSON serialization of the
configured domain slice; the (injective, order-preserving) JSON
encoding is abstracted away and the list itself is kept. -/
structure AcmeCertRecord where
  identifier : String
  domains : List String
  certificateChain : String
  privateKey : String
  issuedAt : GoTime
  expiresAt : GoTime
  deriving DecidableEq, Repr

/-- The record-building prefix of `saveCertificateResource`
(part_004): decode one PEM block from the chain, parse the leaf, then
assemble the `db.AcmeCert` value. -/
def saveCertificateResourceBuild (res : Resource) (cfgDomains : List String) :
    Except TLSErr AcmeCertRecord :=
  match res.leafParse with
  | .noBlock => .error (.decodePEMFailed res.domain)
  | .parseFail => .error (.parseCertFailed res.domain)
  | .ok cert =>
    .ok { identifier := res.domain
          domains := cfgDomains
          certificateChain := res.certificateChainRaw
          privateKey := res.privateKey
          issuedAt := cert.notBefore.utc
          expiresAt := cert.notAfter.utc }

/-- The renewal work of `TLSCertRenewalHandler.Handle` performed once the
expiry gate has decided renewal is needed (part_004, lines 101-217):
check and parse the account key, build the lego client, build the
Cloudflare provider, set the DNS-01 provider, register the account,
obtain the certificate, and run `saveCertificateResource` (whose record
is `saveCertificateResourceBuild res cfg.acme.domains`; its identifier is
`resource.Domain`). -/
def tlsRenewalWork (cfg : TLSConfig) (env : TLSEnv) :
    Except TLSErr Unit × List ExtEvent :=
  if cfg.acme.acmePrivateKey = "" then (.error .missingAcmeKey, [])
  else if env.parseKeyOk = false then (.error .parseAcmeKey, [])
  else if env.newClientOk = false then (.error .newClient, [.newClient])
  else if env.newCFProviderOk = false then (.error .cloudflareProvider, [.newClient])
  else if env.setDNSOk = false then (.error .setDNSProvider, [.newClient, .setDNS])
  else if env.registerOk = false then
    (.error .registrationFailed, [.newClient, .setDNS, .register])
  else
    match env.obtainResult with
    | none =>
      (.error .obtainFailed, [.newClient, .setDNS, .register, .obtain cfg.acme.domains])
    | some res =>
      match res.leafParse with
      | .noBlock =>
        (.error (.decodePEMFailed res.domain),
         [.newClient, .setDNS, .register, .obtain cfg.acme.domains])
      | .parseFail =>
        (.error (.parseCertFailed res.domain),
         [.newClient, .setDNS, .register, .obtain cfg.acme.domains])
      | .ok _ =>
        if env.saveOk = false then
          (.error (.saveFailed res.domain),
           [.newClient, .setDNS, .register, .obtain cfg.acme.domains, .save res.domain])
        else
          (.ok (),
           [.newClient, .setDNS, .register, .obtain cfg.acme.domains, .save res.domain])

/-- `TLSCertRenewalHandler.Handle` (part_004, lines 59-218): the
configuration checks, the expiry gate, and — when renewal is needed —
the renewal work, with the external-call outcomes supplied by `env` and
the performed external interactions returned as a trace. -/
def tlsCertRenewalHandle (cfg : TLSConfig) (env : TLSEnv) :
    Except TLSErr Unit × List ExtEvent :=
  if cfg.acme.enabled = false then (.ok (), [])
  else if cfg.acme.dnsProvider ≠ "cloudflare" then
    (.error (.unsupportedDNSProvider cfg.acme.dnsProvider), [])
  else if cfg.acme.cloudflareApiToken = "" then (.error .missingCloudflareToken, [])
  else if cfg.acme.domains = [] then (.error .noDomains, [])
  else
    match certificateNeedsRenewal cfg.serverCertData env.now
        cfg.acme.renewalDaysBeforeExpiry with
    | (_, some _) => (.error .expiryCheckFailed, [])
    | (needsRenewal, none) =>
      if needsRenewal = false then (.ok (), [])
      else tlsRenewalWork cfg env

/-- C1: For a PEM chain that decodes and parses to a valid certificate, the
expiry gate returns `true` exactly when `(notAfter - now) / 24h` is
strictly below the threshold, and `false` otherwise, with a nil error. -/
theorem certificateNeedsRenewal_valid_iff (cert : Certificate) (now T : Int) :
    (certificateNeedsRenewal (PEMData.valid cert) now T).fst = true ↔
      specDaysUntil now cert.notAfter.sec < (T : ℚ) := by
  unfold certificateNeedsRenewal specDaysUntil
  constructor
  · intro h
    by_cases hc : ((cert.notAfter.sec - now : Int) : ℚ) / 3600 / 24 < (T : ℚ)
    · calc ((cert.notAfter.sec - now : Int) : ℚ) / 86400
          = ((cert.notAfter.sec - now : Int) : ℚ) / 3600 / 24 := by ring
        _ < (T : ℚ) := hc
    · simp only [hc, if_false, if_neg hc] at h
      exact absurd h (by simp)
  · intro h
    have hc : ((cert.notAfter.sec - now : Int) : ℚ) / 3600 / 24 < (T : ℚ) := by
      calc ((cert.notAfter.sec - now : Int) : ℚ) / 3600 / 24
          = ((cert.notAfter.sec - now : Int) : ℚ) / 86400 := by ring
        _ < (T : ℚ) := h
    simp only [hc, if_true, if_pos hc]

theorem certificateNeedsRenewal_snd_none (d : PEMData) (now T : Int) :
    (certificateNeedsRenewal d now T).snd = none := by
  cases d with
  | empty => rfl
  | undecodable raw => rfl
  | unparsable raw => rfl
  | valid cert =>
    show (if ((cert.notAfter.sec - now : Int) : ℚ) / 3600 / 24 < ((T : Int) : ℚ)
        then ((true, none) : Bool × Option String) else (false, none)).snd = none
    split <;> rfl

theorem saveCertificateResourceBuild_ne_expiry (res : Resource) (ds : List String) :
    saveCertificateResourceBuild res ds ≠ Except.error TLSErr.expiryCheckFailed := by
  cases h : res.leafParse <;> simp [saveCertificateResourceBuild, h]

theorem tlsRenewalWork_ne_expiryErr (cfg : TLSConfig) (env : TLSEnv) :
    (tlsRenewalWork cfg env).fst ≠ Except.error TLSErr.expiryCheckFailed := by
  unfold tlsRenewalWork
  repeat' split
  all_goals simp

theorem tlsCertRenewalHandle_ne_expiryErr (cfg : TLSConfig) (env : TLSEnv) :
    (tlsCertRenewalHandle cfg env).fst ≠ Except.error TLSErr.expiryCheckFailed := by
  have hgate := certificateNeedsRenewal_snd_none cfg.serverCertData env.now
    cfg.acme.renewalDaysBeforeExpiry
  unfold tlsCertRenewalHandle
  repeat' split
  any_goals exact tlsRenewalWork_ne_expiryErr _ _
  any_goals simp
  all_goals rename_i heq
  all_goals rw [heq] at hgate
  all_goals simp at hgate

/-- C2: For every threshold, an empty chain, an undecodable PEM block, and
unparsable certificate bytes all make `certificateNeedsRenewal` return
`true` with a nil error; the function never returns an error on any
input, so the orchestrator's fatal branch for an expiry-check error is
unreachable. -/
theorem certificateNeedsRenewal_failsOpen :
    (∀ now T, certificateNeedsRenewal PEMData.empty now T = (true, none)) ∧
    (∀ raw now T, certificateNeedsRenewal (PEMData.undecodable raw) now T = (true, none)) ∧
    (∀ raw now T, certificateNeedsRenewal (PEMData.unparsable raw) now T = (true, none)) ∧
    (∀ d now T, (certificateNeedsRenewal d now T).snd = none) ∧
    (∀ cfg env, (tlsCertRenewalHandle cfg env).fst ≠ Except.error TLSErr.expiryCheckFailed) := by
  exact ⟨fun _ _ => rfl, fun _ _ _ => rfl, fun _ _ _ => rfl,
    certificateNeedsRenewal_snd_none, tlsCertRenewalHandle_ne_expiryErr⟩

/-- C3: With a configuration whose `Enabled` flag is false, the part_004
handler returns success immediately with an empty external-call trace:
no registration, no obtain, no persistence read or write. -/
theorem tlsCertRenewalHandle_disabled (cfg : TLSConfig) (env : TLSEnv)
    (h : cfg.acme.enabled = false) :
    tlsCertRenewalHandle cfg env = (Except.ok (), []) := by
  unfold tlsCertRenewalHandle
  simp [h]

theorem tlsCertRenewalHandle_disabled_witness :
    (⟨⟨false, "a@b.c", ["example.com"], "cloudflare", 30, "tok", "url", "key"⟩,
        PEMData.empty⟩ : TLSConfig).acme.enabled = false ∧
    tlsCertRenewalHandle
        ⟨⟨false, "a@b.c", ["example.com"], "cloudflare", 30, "tok", "url", "key"⟩,
          PEMData.empty⟩
        ⟨0, true, true, true, true, true, none, true⟩ = (Except.ok (), []) :=
  ⟨rfl, tlsCertRenewalHandle_disabled _ _ rfl⟩

/-- A DNS provider credential bundle (AcmeCertRenewal.go, `DNSProvider`). -/
structure DNSProvider where
  apiToken : String
  deriving DecidableEq, Repr

/-- The renewal configuration of the AcmeCertRenewal.go orchestrator
(second iteration, lines 269-294), with the provider map as an
association list. -/
structure RenewalConfig where
  email : String
  domains : List String
  dnsProviders : List (String × DNSProvider)
  caDirectoryURL : String
  activeDNSProvider : String
  acmeAccountPrivateKey : String
  deriving DecidableEq, Repr

/-- Outcomes of the external operations a run of the AcmeCertRenewal.go
orchestrator may perform. -/
structure RenewEnv where
  parseKeyOk : Bool
  newClientOk : Bool
  newCFProviderOk : Bool
  setDNSOk : Bool
  registerOk : Bool
  obtainResult : Option Resource
  saveOk : Bool
  deriving DecidableEq, Repr

/-- The error cases of the AcmeCertRenewal.go `Handle` /
`getDNSProvider` / `saveCertificate` code.  Each constructor carries
exactly the data interpolated into the Go error message it models; in
particular `obtainFailed` carries the attempted domain set, from
`fmt.Errorf("failed to obtain certificate for domains %v: %w", ...)`. -/
inductive RenewErr where
  | parseAccountKey
  | newClient
  | missingActiveProvider
  | providerNotFound (name : String)
  | cloudflareProvider
  | unsupportedProvider (name : String)
  | setDNSProvider
  | registrationFailed (email : String)
  | obtainFailed (domains : List String)
  | decodeLeafFailed (domain : String)
  | parseLeafFailed (domain : String)
  | saveFailed (scope : String)
  deriving DecidableEq, Repr

/-- The domain set interpolated into the Go error message modelled by a
`RenewErr` value, if any. -/
def RenewErr.mentionedDomains : RenewErr → Option (List String)
  | .obtainFailed ds => some ds
  | _ => none

/-- The `Cert` record of AcmeCertRenewal.go (second iteration,
lines 298-305). -/
structure Cert where
  identifier : String
  domains : List String
  certificateChain : String
  privateKey : String
  issuedAt : GoTime
  expiresAt : GoTime
  deriving DecidableEq, Repr

/-- `getDNSProvider` (AcmeCertRenewal.go, lines 434-458): dispatch on
the provider name; only "cloudflare" is supported, and its construction
may fail. -/
def getDNSProvider (providerName : String) (_providerConfig : DNSProvider)
    (newCFProviderOk : Bool) : Except RenewErr Unit :=
  if providerName = "cloudflare" then
    if newCFProviderOk then .ok () else .error .cloudflareProvider
  else
    .error (.unsupportedProvider providerName)

/-- The record-building prefix of `saveCertificate` (AcmeCertRenewal.go,
lines 460-483): decode a single PEM block from the chain's leading
entry, parse the leaf, then assemble the `Cert` value (identifier from
`resource.Domain`, domains from the handler's configured slice,
issued/expiry instants from the parsed leaf converted to UTC). -/
def saveCertificateBuild (res : Resource) (cfgDomains : List String) :
    Except RenewErr Cert :=
  match res.leafParse with
  | .noBlock => .error (.decodeLeafFailed res.domain)
  | .parseFail => .error (.parseLeafFailed res.domain)
  | .ok cert =>
    .ok { identifier := res.domain
          domains := cfgDomains
          certificateChain := res.certificateChainRaw
          privateKey := res.privateKey
          issuedAt := cert.notBefore.utc
          expiresAt := cert.notAfter.utc }

/-- `CertRenewalHandler.Handle` of AcmeCertRenewal.go (second iteration,
lines 340-430) together with `saveCertificate` (lines 460-506): parse
the account key, create the lego client, resolve the active DNS
provider in the provider map, build it, set it, register the account,
obtain the certificate, and save the built record (the built record is
`saveCertificateBuild res cfg.domains`, whose identifier is
`resource.Domain`). -/
def certRenewalHandle (cfg : RenewalConfig) (env : RenewEnv) :
    Except RenewErr Unit × List ExtEvent :=
  if env.parseKeyOk = false then (.error .parseAccountKey, [])
  else if env.newClientOk = false then (.error .newClient, [.newClient])
  else if cfg.activeDNSProvider = "" then (.error .missingActiveProvider, [.newClient])
  else
    match cfg.dnsProviders.lookup cfg.activeDNSProvider with
    | none => (.error (.providerNotFound cfg.activeDNSProvider), [.newClient])
    | some providerConfig =>
      match getDNSProvider cfg.activeDNSProvider providerConfig env.newCFProviderOk with
      | .error e => (.error e, [.newClient])
      | .ok _ =>
        if env.setDNSOk = false then (.error .setDNSProvider, [.newClient, .setDNS])
        else if env.registerOk = false then
          (.error (.registrationFailed cfg.email), [.newClient, .setDNS, .register])
        else
          match env.obtainResult with
          | none =>
            (.error (.obtainFailed cfg.domains),
             [.newClient, .setDNS, .register, .obtain cfg.domains])
          | some res =>
            match res.leafParse with
            | .noBlock =>
              (.error (.decodeLeafFailed res.domain),
               [.newClient, .setDNS, .register, .obtain cfg.domains])
            | .parseFail =>
              (.error (.parseLeafFailed res.domain),
               [.newClient, .setDNS, .register, .obtain cfg.domains])
            | .ok _ =>
              if env.saveOk = false then
                (.error (.saveFailed "acme_certificate"),
                 [.newClient, .setDNS, .register, .obtain cfg.domains, .save res.domain])
              else
                (.ok (),
                 [.newClient, .setDNS, .register, .obtain cfg.domains, .save res.domain])

theorem certRenewalHandle_obtain_reached (cfg : RenewalConfig) (env : RenewEnv)
    (hreach : ExtEvent.obtain cfg.domains ∈ (certRenewalHandle cfg env).snd) :
    env.parseKeyOk = true ∧ env.newClientOk = true ∧
    cfg.activeDNSProvider = "cloudflare" ∧
    (∃ pc, cfg.dnsProviders.lookup cfg.activeDNSProvider = some pc) ∧
    env.newCFProviderOk = true ∧ env.setDNSOk = true ∧ env.registerOk = true := by
  cases hpk : env.parseKeyOk with
  | false => simp [certRenewalHandle, hpk] at hreach
  | true =>
  cases hnc : env.newClientOk with
  | false => simp [certRenewalHandle, hpk, hnc] at hreach
  | true =>
  by_cases hap : cfg.activeDNSProvider = ""
  · simp [certRenewalHandle, hpk, hnc, hap] at hreach
  · rcases hlk : cfg.dnsProviders.lookup cfg.activeDNSProvider with _ | pc
    · simp [certRenewalHandle, hpk, hnc, hap, hlk] at hreach
    · by_cases hcf : cfg.activeDNSProvider = "cloudflare"
      · rw [hcf] at hlk
        cases hcfp : env.newCFProviderOk with
        | false =>
          simp [certRenewalHandle, getDNSProvider, hpk, hnc, hap, hlk, hcf, hcfp] at hreach
        | true =>
        cases hsd : env.setDNSOk with
        | false =>
          simp [certRenewalHandle, getDNSProvider, hpk, hnc, hap, hlk, hcf, hcfp,
            hsd] at hreach
        | true =>
        cases hrg : env.registerOk with
        | false =>
          simp [certRenewalHandle, getDNSProvider, hpk, hnc, hap, hlk, hcf, hcfp,
            hsd, hrg] at hreach
        | true => exact ⟨rfl, rfl, hcf, ⟨pc, rfl⟩, rfl, rfl, rfl⟩
      · simp [certRenewalHandle, getDNSProvider, hpk, hnc, hap, hlk, hcf] at hreach

theorem tlsRenewalWork_obtain_reached (cfg : TLSConfig) (env : TLSEnv)
    (hreach : ExtEvent.obtain cfg.acme.domains ∈ (tlsRenewalWork cfg env).snd) :
    cfg.acme.acmePrivateKey ≠ "" ∧ env.parseKeyOk = true ∧ env.newClientOk = true ∧
    env.newCFProviderOk = true ∧ env.setDNSOk = true ∧ env.registerOk = true := by
  by_cases hk : cfg.acme.acmePrivateKey = ""
  · simp [tlsRenewalWork, hk] at hreach
  · cases hpk : env.parseKeyOk with
    | false => simp [tlsRenewalWork, hk, hpk] at hreach
    | true =>
    cases hnc : env.newClientOk with
    | false => simp [tlsRenewalWork, hk, hpk, hnc] at hreach
    | true =>
    cases hcfp : env.newCFProviderOk with
    | false => simp [tlsRenewalWork, hk, hpk, hnc, hcfp] at hreach
    | true =>
    cases hsd : env.setDNSOk with
    | false => simp [tlsRenewalWork, hk, hpk, hnc, hcfp, hsd] at hreach
    | true =>
    cases hrg : env.registerOk with
    | false => simp [tlsRenewalWork, hk, hpk, hnc, hcfp, hsd, hrg] at hreach
    | true => exact ⟨hk, rfl, rfl, rfl, rfl, rfl⟩

theorem tlsCertRenewalHandle_snd_cases (cfg : TLSConfig) (env : TLSEnv) :
    tlsCertRenewalHandle cfg env = (Except.ok (), []) ∨
    (∃ e, tlsCertRenewalHandle cfg env = (Except.error e, [])) ∨
    tlsCertRenewalHandle cfg env = tlsRenewalWork cfg env := by
  unfold tlsCertRenewalHandle
  repeat' split
  all_goals first
    | exact Or.inl rfl
    | exact Or.inr (Or.inl ⟨_, rfl⟩)
    | exact Or.inr (Or.inr rfl)

/-- C4: The record built from a successfully obtained resource whose
leaf parses has `issued_at` equal to the leaf's NotBefore instant and
`expires_at` equal to the leaf's NotAfter instant, exactly and converted
to UTC; its identifier equals the resource's declared primary domain;
and its stored domains value is exactly the configured domain list with
order preserved.  Stated for `saveCertificate` of AcmeCertRenewal.go
(first conjunct block) and for `saveCertificateResource` of part_004
(last conjunct). -/
theorem saveCertificateBuild_fields (d raw key : String) (leaf : Certificate)
    (cfgDomains : List String) :
    saveCertificateBuild ⟨d, raw, LeafParse.ok leaf, key⟩ cfgDomains =
      Except.ok ⟨d, cfgDomains, raw, key, leaf.notBefore.utc, leaf.notAfter.utc⟩ ∧
    leaf.notBefore.utc.sec = leaf.notBefore.sec ∧ leaf.notBefore.utc.loc = "UTC" ∧
    leaf.notAfter.utc.sec = leaf.notAfter.sec ∧ leaf.notAfter.utc.loc = "UTC" ∧
    saveCertificateResourceBuild ⟨d, raw, LeafParse.ok leaf, key⟩ cfgDomains =
      Except.ok ⟨d, cfgDomains, raw, key, leaf.notBefore.utc, leaf.notAfter.utc⟩ :=
  ⟨rfl, rfl, rfl, rfl, rfl, rfl⟩

/-- C5 counterexample: in a run of the part_004 handler in which the
obtain call is made and fails, the returned error is the fixed error of
`fmt.Errorf("failed to obtain ACME certificate: %w", err)`, which does
not name the attempted domain set (the domains appear only in the
adjacent log call), refuting the claim as stated. -/
theorem tlsObtainFailure_error_namesNoDomains :
    (tlsCertRenewalHandle
        ⟨⟨true, "a@b.c", ["example.com"], "cloudflare", 30, "tok", "url", "key"⟩,
          PEMData.empty⟩
        ⟨0, true, true, true, true, true, none, true⟩).fst
      = Except.error TLSErr.obtainFailed ∧
    TLSErr.namesDomains TLSErr.obtainFailed = false ∧
    ExtEvent.obtain ["example.com"] ∈
      (tlsCertRenewalHandle
        ⟨⟨true, "a@b.c", ["example.com"], "cloudflare", 30, "tok", "url", "key"⟩,
          PEMData.empty⟩
        ⟨0, true, true, true, true, true, none, true⟩).snd := by
  refine ⟨rfl, rfl, ?_⟩
  decide

/-- C5 (amended): in every run of either orchestrator in which the
obtain call is made and fails, the orchestrator returns an error and the
persistence save is never invoked; the AcmeCertRenewal.go orchestrator's
returned error names the attempted domain set, while the part_004
handler's returned error is the fixed obtain-failure error that names no
domains. -/
theorem obtainFailure_no_save (cfg : RenewalConfig) (env : RenewEnv)
    (cfg2 : TLSConfig) (env2 : TLSEnv)
    (hobt : env.obtainResult = none)
    (hreach : ExtEvent.obtain cfg.domains ∈ (certRenewalHandle cfg env).snd)
    (hobt2 : env2.obtainResult = none)
    (hreach2 : ExtEvent.obtain cfg2.acme.domains ∈ (tlsCertRenewalHandle cfg2 env2).snd) :
    (certRenewalHandle cfg env).fst = Except.error (RenewErr.obtainFailed cfg.domains) ∧
    RenewErr.mentionedDomains (RenewErr.obtainFailed cfg.domains) = some cfg.domains ∧
    ((certRenewalHandle cfg env).snd.all fun e => !e.isSave) = true ∧
    (tlsCertRenewalHandle cfg2 env2).fst = Except.error TLSErr.obtainFailed ∧
    TLSErr.namesDomains TLSErr.obtainFailed = false ∧
    ((tlsCertRenewalHandle cfg2 env2).snd.all fun e => !e.isSave) = true := by
  obtain ⟨hpk, hnc, hcf, ⟨pc, hlk⟩, hcfp, hsd, hrg⟩ :=
    certRenewalHandle_obtain_reached cfg env hreach
  have hap : ¬ cfg.activeDNSProvider = "" := by rw [hcf]; decide
  rw [hcf] at hlk
  rcases tlsCertRenewalHandle_snd_cases cfg2 env2 with h2 | ⟨e, h2⟩ | h2
  · rw [h2] at hreach2; simp at hreach2
  · rw [h2] at hreach2; simp at hreach2
  · rw [h2] at hreach2
    obtain ⟨hk2, hpk2, hnc2, hcfp2, hsd2, hrg2⟩ :=
      tlsRenewalWork_obtain_reached cfg2 env2 hreach2
    rw [h2]
    simp [certRenewalHandle, getDNSProvider, tlsRenewalWork, hpk, hnc, hap, hcf, hlk,
      hcfp, hsd, hrg, hobt, hk2, hpk2, hnc2, hcfp2, hsd2, hrg2, hobt2,
      ExtEvent.isSave, RenewErr.mentionedDomains, TLSErr.namesDomains]

theorem obtainFailure_no_save_witness :
    ((⟨true, true, true, true, true, none, true⟩ : RenewEnv).obtainResult = none) ∧
    ExtEvent.obtain ["example.com"] ∈
      (certRenewalHandle
        ⟨"a@b.c", ["example.com"], [("cloudflare", ⟨"tok"⟩)], "url", "cloudflare", "key"⟩
        ⟨true, true, true, true, true, none, true⟩).snd ∧
    (certRenewalHandle
        ⟨"a@b.c", ["example.com"], [("cloudflare", ⟨"tok"⟩)], "url", "cloudflare", "key"⟩
        ⟨true, true, true, true, true, none, true⟩).fst
      = Except.error (RenewErr.obtainFailed ["example.com"]) ∧
    ((certRenewalHandle
        ⟨"a@b.c", ["example.com"], [("cloudflare", ⟨"tok"⟩)], "url", "cloudflare", "key"⟩
        ⟨true, true, true, true, true, none, true⟩).snd.all fun e => !e.isSave) = true := by
  have h := obtainFailure_no_save
      ⟨"a@b.c", ["example.com"], [("cloudflare", ⟨"tok"⟩)], "url", "cloudflare", "key"⟩
      ⟨true, true, true, true, true, none, true⟩
      ⟨⟨true, "a@b.c", ["example.com"], "cloudflare", 30, "tok", "url", "key"⟩,
        PEMData.empty⟩
      ⟨0, true, true, true, true, true, none, true⟩
      rfl (by decide) rfl (by decide)
  exact ⟨rfl, by decide, h.1, h.2.2.1⟩

/-- C6 counterexample: in a run whose active provider selector
("dnsimple") is absent from the provider map, the run does fail at
provider resolution with the provider-not-found error — but the trace
already contains the lego client construction, a network call (the
ACME directory fetch performed eagerly by `lego.NewClient` of go-acme/lego
v4, invoked at AcmeCertRenewal.go line 358, before the provider-map
lookup at line 373).  This refutes the claim's "before any network call
is made (no directory fetch, ...)". -/
theorem providerResolution_after_directory_fetch :
    certRenewalHandle
        ⟨"a@b.c", ["example.com"], [("cloudflare", ⟨"tok"⟩)], "url", "dnsimple", "key"⟩
        ⟨true, true, true, true, true, none, true⟩
      = (Except.error (RenewErr.providerNotFound "dnsimple"), [ExtEvent.newClient]) ∧
    ExtEvent.isNetwork ExtEvent.newClient = true :=
  ⟨rfl, rfl⟩

/-- C6 (amended): when the active provider selector names a key absent
from the provider map and the run reaches provider resolution (the
account key parsed and the client was created), the run fails during
provider resolution with the provider-not-found error before any
registration, obtain, or persistence call — but after the lego client
construction, which performs the ACME directory fetch; that construction
is the only step in the returned trace. -/
theorem providerResolution_failure (cfg : RenewalConfig) (env : RenewEnv)
    (hpk : env.parseKeyOk = true) (hnc : env.newClientOk = true)
    (hname : cfg.activeDNSProvider ≠ "")
    (hlk : cfg.dnsProviders.lookup cfg.activeDNSProvider = none) :
    certRenewalHandle cfg env
      = (Except.error (RenewErr.providerNotFound cfg.activeDNSProvider),
         [ExtEvent.newClient]) ∧
    ExtEvent.isNetwork ExtEvent.newClient = true ∧
    ExtEvent.register ∉ (certRenewalHandle cfg env).snd ∧
    (∀ ds, ExtEvent.obtain ds ∉ (certRenewalHandle cfg env).snd) ∧
    (∀ s, ExtEvent.save s ∉ (certRenewalHandle cfg env).snd) := by
  have h : certRenewalHandle cfg env
      = (Except.error (RenewErr.providerNotFound cfg.activeDNSProvider),
         [ExtEvent.newClient]) := by
    simp [certRenewalHandle, hpk, hnc, hname, hlk]
  refine ⟨h, rfl, ?_, ?_, ?_⟩
  · rw [h]
    simp
  · intro ds
    rw [h]
    simp
  · intro s
    rw [h]
    simp

theorem providerResolution_failure_witness :
    ((⟨true, true, true, true, true, none, true⟩ : RenewEnv).parseKeyOk = true) ∧
    ("dnsimple" : String) ≠ "" ∧
    List.lookup "dnsimple" [("cloudflare", (⟨"tok"⟩ : DNSProvider))] = none ∧
    certRenewalHandle
        ⟨"a@b.c", ["example.com"], [("cloudflare", ⟨"tok"⟩)], "url", "dnsimple", "key"⟩
        ⟨true, true, true, true, true, none, true⟩
      = (Except.error (RenewErr.providerNotFound "dnsimple"), [ExtEvent.newClient]) ∧
    ExtEvent.register ∉
      (certRenewalHandle
        ⟨"a@b.c", ["example.com"], [("cloudflare", ⟨"tok"⟩)], "url", "dnsimple", "key"⟩
        ⟨true, true, true, true, true, none, true⟩).snd := by
  have h := providerResolution_failure
      ⟨"a@b.c", ["example.com"], [("cloudflare", ⟨"tok"⟩)], "url", "dnsimple", "key"⟩
      ⟨true, true, true, true, true, none, true⟩
      rfl rfl (by decide) (by decide)
  exact ⟨rfl, by decide, by decide, h.1, h.2.2.1⟩

/-- The first-iteration configuration of AcmeCertRenewal.go (lines
37-43): no active-provider selector; the handler hardwires the
"cloudflare" key. -/
structure ConfigV1 where
  email : String
  domains : List String
  dnsProviders : List (String × DNSProvider)
  caDirectoryURL : String
  acmeAccountPrivateKey : String
  deriving DecidableEq, Repr

/-- `saveCertificateConfig` (AcmeCertRenewal.go first iteration, lines
188-233): marshal the chain and key to TOML and save them under the
certificate-output scope.  The leaf is parsed only to decorate the
description with the expiry timestamp; a missing or unparsable PEM
block is logged as a warning and the save still proceeds. -/
def saveCertificateConfig (_res : Resource) (saveOk : Bool) :
    Except RenewErr Unit × List ExtEvent :=
  if saveOk then (.ok (), [.save "certificate_output"])
  else (.error (.saveFailed "certificate_output"), [.save "certificate_output"])

/-- `CertRenewalHandler.Handle` of the first iteration of
AcmeCertRenewal.go (lines 83-185): like the second iteration but with
the provider name hardwired to "cloudflare" and persistence through
`saveCertificateConfig`. -/
def certRenewalHandleV1 (cfg : ConfigV1) (env : RenewEnv) :
    Except RenewErr Unit × List ExtEvent :=
  if env.parseKeyOk = false then (.error .parseAccountKey, [])
  else if env.newClientOk = false then (.error .newClient, [.newClient])
  else
    match cfg.dnsProviders.lookup "cloudflare" with
    | none => (.error (.providerNotFound "cloudflare"), [.newClient])
    | some _ =>
      if env.newCFProviderOk = false then (.error .cloudflareProvider, [.newClient])
      else if env.setDNSOk = false then (.error .setDNSProvider, [.newClient, .setDNS])
      else if env.registerOk = false then
        (.error (.registrationFailed cfg.email), [.newClient, .setDNS, .register])
      else
        match env.obtainResult with
        | none =>
          (.error (.obtainFailed cfg.domains),
           [.newClient, .setDNS, .register, .obtain cfg.domains])
        | some res =>
          match saveCertificateConfig res env.saveOk with
          | (r, ev) => (r, [.newClient, .setDNS, .register, .obtain cfg.domains] ++ ev)

/-- C7 counterexample: in the first iteration's record-saving path
(`saveCertificateConfig`, AcmeCertRenewal.go lines 188-233, cited by the
claim), an obtained chain whose leading PEM block cannot be decoded is
not fatal — the run succeeds and the chain+key record is persisted
anyway, refuting the claim that such a run fails with nothing
persisted. -/
theorem saveCertificateConfig_persistsMalformedLeaf :
    certRenewalHandleV1
        ⟨"a@b.c", ["example.com"], [("cloudflare", ⟨"tok"⟩)], "url", "key"⟩
        ⟨true, true, true, true, true,
          some ⟨"example.com", "rawchain", LeafParse.noBlock, "pkey"⟩, true⟩
      = (Except.ok (),
         [ExtEvent.newClient, ExtEvent.setDNS, ExtEvent.register,
          ExtEvent.obtain ["example.com"], ExtEvent.save "certificate_output"]) := by
  rfl

/-- C7 (amended): in the record-building path of the AcmeCertRenewal.go
orchestrator that builds a structured record from the fresh chain
(`saveCertificate`, second iteration), a leading PEM block that cannot
be decoded or parsed is fatal: the build step returns an error, the run
fails, and no record is persisted.  The first iteration's
`saveCertificateConfig` path, which stores the raw chain and key,
instead logs a warning and persists them regardless. -/
theorem malformedLeaf_fatal_no_save (cfg : RenewalConfig) (env : RenewEnv)
    (res : Resource)
    (hobt : env.obtainResult = some res)
    (hleaf : res.leafParse = LeafParse.noBlock ∨ res.leafParse = LeafParse.parseFail)
    (hreach : ExtEvent.obtain cfg.domains ∈ (certRenewalHandle cfg env).snd) :
    exceptIsError (saveCertificateBuild res cfg.domains) = true ∧
    exceptIsError (certRenewalHandle cfg env).fst = true ∧
    ((certRenewalHandle cfg env).snd.all fun e => !e.isSave) = true := by
  obtain ⟨hpk, hnc, hcf, ⟨pc, hlk⟩, hcfp, hsd, hrg⟩ :=
    certRenewalHandle_obtain_reached cfg env hreach
  have hap : ¬ cfg.activeDNSProvider = "" := by rw [hcf]; decide
  rw [hcf] at hlk
  rcases hleaf with hleaf | hleaf <;>
    simp [certRenewalHandle, getDNSProvider, saveCertificateBuild, exceptIsError,
      hpk, hnc, hap, hcf, hlk, hcfp, hsd, hrg, hobt, hleaf, ExtEvent.isSave]

theorem malformedLeaf_fatal_no_save_witness :
    ((⟨true, true, true, true, true,
        some ⟨"example.com", "rawchain", LeafParse.noBlock, "pkey"⟩, true⟩ :
          RenewEnv).obtainResult
      = some ⟨"example.com", "rawchain", LeafParse.noBlock, "pkey"⟩) ∧
    ((⟨"example.com", "rawchain", LeafParse.noBlock, "pkey"⟩ :
        Resource).leafParse = LeafParse.noBlock ∨
      (⟨"example.com", "rawchain", LeafParse.noBlock, "pkey"⟩ :
        Resource).leafParse = LeafParse.parseFail) ∧
    ExtEvent.obtain ["example.com"] ∈
      (certRenewalHandle
        ⟨"a@b.c", ["example.com"], [("cloudflare", ⟨"tok"⟩)], "url", "cloudflare", "key"⟩
        ⟨true, true, true, true, true,
          some ⟨"example.com", "rawchain", LeafParse.noBlock, "pkey"⟩, true⟩).snd ∧
    exceptIsError
      (saveCertificateBuild ⟨"example.com", "rawchain", LeafParse.noBlock, "pkey"⟩
        ["example.com"]) = true ∧
    exceptIsError
      (certRenewalHandle
        ⟨"a@b.c", ["example.com"], [("cloudflare", ⟨"tok"⟩)], "url", "cloudflare", "key"⟩
        ⟨true, true, true, true, true,
          some ⟨"example.com", "rawchain", LeafParse.noBlock, "pkey"⟩, true⟩).fst = true ∧
    ((certRenewalHandle
        ⟨"a@b.c", ["example.com"], [("cloudflare", ⟨"tok"⟩)], "url", "cloudflare", "key"⟩
        ⟨true, true, true, true, true,
          some ⟨"example.com", "rawchain", LeafParse.noBlock, "pkey"⟩, true⟩).snd.all
      fun e => !e.isSave) = true := by
  have h := malformedLeaf_fatal_no_save
      ⟨"a@b.c", ["example.com"], [("cloudflare", ⟨"tok"⟩)], "url", "cloudflare", "key"⟩
      ⟨true, true, true, true, true,
        some ⟨"example.com", "rawchain", LeafParse.noBlock, "pkey"⟩, true⟩
      ⟨"example.com", "rawchain", LeafParse.noBlock, "pkey"⟩
      rfl (Or.inl rfl) (by decide)
  exact ⟨rfl, Or.inl rfl, by decide, h.1, h.2.1, h.2.2⟩

/-- A stored row of the `acme_certificates` table used by part_002, with
the audit timestamps.  `issued_at`/`expires_at` are stored as RFC3339
UTC strings via `db.TimeFormat` (part_011); lexicographic order on those
fixed-width strings agrees with the instant order, so the instants are
kept directly as seconds. -/
structure AcmeCertRow where
  identifier : String
  domains : String
  certificateChain : String
  privateKey : String
  issuedAt : Int
  expiresAt : Int
  createdAt : Int
  updatedAt : Int
  deriving DecidableEq, Repr

/-- The fields of `db.AcmeCert` bound by the `Save` statement (part_002,
lines 91-111). -/
structure AcmeCert where
  identifier : String
  domains : String
  certificateChain : String
  privateKey : String
  issuedAt : Int
  expiresAt : Int
  deriving DecidableEq, Repr

/-- The row update performed by the `ON CONFLICT(identifier) DO UPDATE`
clause of `Save`: domains, certificate_chain, private_key, issued_at and
expires_at are set to the excluded values and updated_at to now;
identifier and created_at are untouched. -/
def upsertRow (r : AcmeCertRow) (cert : AcmeCert) (now : Int) : AcmeCertRow :=
  { r with
    domains := cert.domains
    certificateChain := cert.certificateChain
    privateKey := cert.privateKey
    issuedAt := cert.issuedAt
    expiresAt := cert.expiresAt
    updatedAt := now }

/-- The row inserted by `Save` for a new identifier; created_at and
updated_at come from the SQLite column defaults (now). -/
def insertRow (cert : AcmeCert) (now : Int) : AcmeCertRow :=
  ⟨cert.identifier, cert.domains, cert.certificateChain, cert.privateKey,
   cert.issuedAt, cert.expiresAt, now, now⟩

/-- `Db.Save` (part_002, lines 82-119): `INSERT ... ON CONFLICT(identifier)
DO UPDATE`, over a table with a unique index on identifier. -/
def acmeDbSave (rows : List AcmeCertRow) (cert : AcmeCert) (now : Int) :
    List AcmeCertRow :=
  if rows.any (fun r => r.identifier == cert.identifier) then
    rows.map (fun r =>
      if r.identifier == cert.identifier then upsertRow r cert now else r)
  else rows ++ [insertRow cert now]

/-- `Db.Get` (part_002, lines 12-79): `SELECT ... ORDER BY issued_at DESC
LIMIT 1`, returning a stored row with the greatest issued_at (the first
such row in storage order when tied), or the "no certificate found"
error when the table is empty. -/
def acmeDbGet (rows : List AcmeCertRow) : Except String AcmeCertRow :=
  match rows with
  | [] => .error "acme: no certificate found"
  | r :: rs =>
    .ok (rs.foldl (fun best x => if best.issuedAt < x.issuedAt then x else best) r)

theorem acmeDbGet_fold_mem (l : List AcmeCertRow) (acc : AcmeCertRow) :
    l.foldl (fun best x => if best.issuedAt < x.issuedAt then x else best) acc = acc ∨
    l.foldl (fun best x => if best.issuedAt < x.issuedAt then x else best) acc ∈ l := by
  induction l generalizing acc with
  | nil => exact Or.inl rfl
  | cons y ys ih =>
    simp only [List.foldl_cons]
    rcases ih (if acc.issuedAt < y.issuedAt then y else acc) with h | h
    · rw [h]
      split
      · exact Or.inr (List.mem_cons_self _ _)
      · exact Or.inl rfl
    · exact Or.inr (List.mem_cons_of_mem _ h)

theorem acmeDbGet_fold_ge (l : List AcmeCertRow) (acc : AcmeCertRow) :
    acc.issuedAt ≤
      (l.foldl (fun best x => if best.issuedAt < x.issuedAt then x else best)
        acc).issuedAt ∧
    ∀ x ∈ l, x.issuedAt ≤
      (l.foldl (fun best x => if best.issuedAt < x.issuedAt then x else best)
        acc).issuedAt := by
  induction l generalizing acc with
  | nil => exact ⟨le_refl _, by simp⟩
  | cons y ys ih =>
    simp only [List.foldl_cons]
    have h := ih (if acc.issuedAt < y.issuedAt then y else acc)
    have hacc : acc.issuedAt ≤ (if acc.issuedAt < y.issuedAt then y else acc).issuedAt := by
      split
      · next hlt => exact le_of_lt hlt
      · exact le_refl _
    have hy : y.issuedAt ≤ (if acc.issuedAt < y.issuedAt then y else acc).issuedAt := by
      split
      · exact le_refl _
      · next hnlt => exact le_of_not_lt hnlt
    refine ⟨le_trans hacc h.1, ?_⟩
    intro x hx
    rcases List.mem_cons.mp hx with rfl | hx
    · exact le_trans hy h.1
    · exact h.2 x hx

/-- C8 counterexample: after saving a record with identifier "a" issued
at 10 and then a record with identifier "b" issued at 5, the most
recently written row is the "b" row (it is the last stored row, created
at 200), yet `Get` returns the "a" row: `Get` orders by issued_at, not
by write recency, refuting the claim as stated. -/
theorem acmeDbGet_not_most_recent_write :
    (acmeDbGet (acmeDbSave (acmeDbSave [] ⟨"a", "da", "ca", "ka", 10, 20⟩ 100)
        ⟨"b", "db", "cb", "kb", 5, 25⟩ 200)).toOption.map AcmeCertRow.identifier
      = some "a" ∧
    ((acmeDbSave (acmeDbSave [] ⟨"a", "da", "ca", "ka", 10, 20⟩ 100)
        ⟨"b", "db", "cb", "kb", 5, 25⟩ 200).getLast?).map AcmeCertRow.identifier
      = some "b" :=
  ⟨rfl, rfl⟩

/-- C8 (amended): `Get` returns an error exactly when no record has been
written; otherwise it returns a stored record whose issued_at is maximal
among the stored records — the most recently issued record, which need
not be the most recently written one. -/
theorem acmeDbGet_latest_issued (rows : List AcmeCertRow) :
    (rows = [] → acmeDbGet rows = Except.error "acme: no certificate found") ∧
    (∀ r, acmeDbGet rows = Except.ok r →
      r ∈ rows ∧ ∀ x ∈ rows, x.issuedAt ≤ r.issuedAt) := by
  constructor
  · intro h
    subst h
    rfl
  · intro r hr
    cases rows with
    | nil => cases hr
    | cons y ys =>
      have hOk : ys.foldl (fun best x => if best.issuedAt < x.issuedAt then x else best) y
          = r := by
        have := hr
        unfold acmeDbGet at this
        exact Except.ok.inj this
      constructor
      · rcases acmeDbGet_fold_mem ys y with h | h
        · rw [← hOk, h]
          exact List.mem_cons_self _ _
        · rw [← hOk]
          exact List.mem_cons_of_mem _ h
      · intro x hx
        have hge := acmeDbGet_fold_ge ys y
        rw [hOk] at hge
        rcases List.mem_cons.mp hx with rfl | hx
        · exact hge.1
        · exact hge.2 x hx

theorem acmeDbGet_latest_issued_witness :
    acmeDbGet ([] : List AcmeCertRow) = Except.error "acme: no certificate found" ∧
    (⟨"a", "da", "ca", "ka", 10, 20, 100, 100⟩ : AcmeCertRow) ∈
      [(⟨"a", "da", "ca", "ka", 10, 20, 100, 100⟩ : AcmeCertRow)] := by
  refine ⟨(acmeDbGet_latest_issued []).1 rfl, ?_⟩
  exact ((acmeDbGet_latest_issued [⟨"a", "da", "ca", "ka", 10, 20, 100, 100⟩]).2
    ⟨"a", "da", "ca", "ka", 10, 20, 100, 100⟩ rfl).1

theorem acmeDbSave_keeps_identifier (cert : AcmeCert) (now : Int) (x : AcmeCertRow) :
    (if x.identifier == cert.identifier then upsertRow x cert now else x).identifier
      = x.identifier := by
  split
  · rfl
  · rfl

/-- C10: `Save` preserves at-most-one-row-per-identifier.  Saving a
record whose identifier already exists rewrites that row in place —
domains, certificate chain, private key, issued_at and expires_at are
overwritten and updated_at is set, while identifier and created_at are
untouched and the row count is unchanged — whereas a new identifier
appends a fresh row. -/
theorem acmeDbSave_upsert (rows : List AcmeCertRow) (cert : AcmeCert) (now : Int)
    (hinv : rows.Pairwise (fun a b => a.identifier ≠ b.identifier)) :
    (acmeDbSave rows cert now).Pairwise (fun a b => a.identifier ≠ b.identifier) ∧
    (rows.any (fun r => r.identifier == cert.identifier) = true →
      acmeDbSave rows cert now
        = rows.map (fun r =>
            if r.identifier == cert.identifier then upsertRow r cert now else r) ∧
      (acmeDbSave rows cert now).length = rows.length) ∧
    (rows.any (fun r => r.identifier == cert.identifier) = false →
      acmeDbSave rows cert now = rows ++ [insertRow cert now]) ∧
    (∀ r, (upsertRow r cert now).identifier = r.identifier ∧
      (upsertRow r cert now).createdAt = r.createdAt ∧
      (upsertRow r cert now).updatedAt = now ∧
      (upsertRow r cert now).domains = cert.domains ∧
      (upsertRow r cert now).certificateChain = cert.certificateChain ∧
      (upsertRow r cert now).privateKey = cert.privateKey ∧
      (upsertRow r cert now).issuedAt = cert.issuedAt ∧
      (upsertRow r cert now).expiresAt = cert.expiresAt) := by
  refine ⟨?_, ?_, ?_, ?_⟩
  · by_cases hany : rows.any (fun r => r.identifier == cert.identifier) = true
    · rw [acmeDbSave, if_pos hany]
      refine List.Pairwise.map _ ?_ hinv
      intro a b hab
      rw [acmeDbSave_keeps_identifier, acmeDbSave_keeps_identifier]
      exact hab
    · rw [acmeDbSave, if_neg hany]
      rw [List.pairwise_append]
      refine ⟨hinv, List.pairwise_singleton _ _, ?_⟩
      intro a ha b hb
      rw [List.mem_singleton] at hb
      subst hb
      have hne := (List.any_eq_false.mp (Bool.eq_false_iff.mpr hany)) a ha
      intro hcontra
      apply hne
      rw [beq_iff_eq]
      exact hcontra
  · intro hany
    rw [acmeDbSave, if_pos hany]
    exact ⟨rfl, by rw [List.length_map]⟩
  · intro hany
    rw [acmeDbSave, if_neg (by rw [hany]; exact Bool.false_ne_true)]
  · intro r
    exact ⟨rfl, rfl, rfl, rfl, rfl, rfl, rfl, rfl⟩

theorem acmeDbSave_upsert_witness :
    ([] : List AcmeCertRow).Pairwise (fun a b => a.identifier ≠ b.identifier) ∧
    acmeDbSave [] ⟨"a", "da", "ca", "ka", 1, 2⟩ 5
      = [insertRow ⟨"a", "da", "ca", "ka", 1, 2⟩ 5] := by
  have h := acmeDbSave_upsert [] ⟨"a", "da", "ca", "ka", 1, 2⟩ 5 List.Pairwise.nil
  exact ⟨List.Pairwise.nil, by simpa using h.2.2.1 rfl⟩

/-- The handler state built by `NewCertRenewalHandler`
(AcmeCertRenewal.go, lines 307-322), parametric in the types of the
store and logger interface arguments. -/
structure CertRenewalHandler (σ Λ : Type) where
  config : RenewalConfig
  secureConfigStore : σ
  logger : Λ

/-- Outcome of running the constructor: a Go `panic` with its message,
or the constructed handler. -/
inductive ConstructorResult (σ Λ : Type) where
  | panicked (msg : String)
  | ok (h : CertRenewalHandler σ Λ)

/-- `NewCertRenewalHandler` (AcmeCertRenewal.go, lines 313-322; the
part_003 variant, lines 57-66, is the same shape with a `Writer`
dependency).  Nil interface/pointer arguments are modelled as `none`.
The Go code stores the logger wrapped by `logger.With("job_handler", ...)`,
which preserves non-nilness; the model keeps the logger value itself. -/
def NewCertRenewalHandler {σ Λ : Type} (cfg : Option RenewalConfig)
    (store : Option σ) (logger : Option Λ) : ConstructorResult σ Λ :=
  match cfg, store, logger with
  | some c, some s, some l => .ok ⟨c, s, l⟩
  | _, _, _ => .panicked "NewCertRenewalHandler: received nil config, store, or logger"

/-- C9: the constructor panics exactly when one of the config, store or
logger arguments is nil; otherwise the returned handler holds precisely
the three supplied non-nil dependencies, so no later operation
dereferences a nil dependency. -/
theorem NewCertRenewalHandler_nil_panics {σ Λ : Type}
    (cfg : Option RenewalConfig) (store : Option σ) (logger : Option Λ) :
    (NewCertRenewalHandler cfg store logger
        = ConstructorResult.panicked
            "NewCertRenewalHandler: received nil config, store, or logger"
      ↔ (cfg = none ∨ store = none ∨ logger = none)) ∧
    (∀ h, NewCertRenewalHandler cfg store logger = ConstructorResult.ok h →
      cfg = some h.config ∧ store = some h.secureConfigStore ∧
      logger = some h.logger) := by
  rcases cfg with _ | c <;> rcases store with _ | s <;> rcases logger with _ | l <;>
    constructor <;> simp [NewCertRenewalHandler]

theorem NewCertRenewalHandler_nil_panics_witness :
    (NewCertRenewalHandler (none : Option RenewalConfig) (some ()) (some ())
        : ConstructorResult Unit Unit)
      = ConstructorResult.panicked
          "NewCertRenewalHandler: received nil config, store, or logger" ∧
    (none : Option RenewalConfig) = none := by
  refine ⟨?_, rfl⟩
  exact (NewCertRenewalHandler_nil_panics (none : Option RenewalConfig)
    (some () : Option Unit) (some () : Option Unit)).1.mpr (Or.inl rfl)

theorem certificateNeedsRenewal_failsOpen_witness :
    certificateNeedsRenewal PEMData.empty 0 30 = (true, none) ∧
    certificateNeedsRenewal (PEMData.undecodable "garbage") 0 30 = (true, none) ∧
    certificateNeedsRenewal (PEMData.unparsable "garbage") 0 30 = (true, none) ∧
    (certificateNeedsRenewal PEMData.empty 0 30).snd = none ∧
    (tlsCertRenewalHandle
        ⟨⟨true, "a@b.c", ["example.com"], "cloudflare", 30, "tok", "url", "key"⟩,
          PEMData.empty⟩
        ⟨0, true, true, true, true, true, none, true⟩).fst
      ≠ Except.error TLSErr.expiryCheckFailed := by
  refine ⟨?_, ?_, ?_, ?_, ?_⟩
  · exact certificateNeedsRenewal_failsOpen.1 0 30
  · exact certificateNeedsRenewal_failsOpen.2.1 "garbage" 0 30
  · exact certificateNeedsRenewal_failsOpen.2.2.1 "garbage" 0 30
  · exact certificateNeedsRenewal_failsOpen.2.2.2.1 PEMData.empty 0 30
  · exact certificateNeedsRenewal_failsOpen.2.2.2.2 _ _
